import Mathlib

/-!
Verification of the session-registry and checkpoint-timeline logic of the
`opcode` repository, shallowly embedded in Lean 4.

Part 1 models `src/services/sessionStorage.ts`.  The browser key-value slot
(`localStorage` under the single key `claudia_active_sessions`) is modelled as
an `Option` association list: `none` is "key never written", `some l` is the
deserialized JSON object, whose keys appear in insertion order.  `Date.now()`
is modelled as a single instant `now : Nat` passed to each top-level
operation (every `Date.now()` read inside one call sees the same instant).
An operation that writes the store returns the new store; a read-only
operation returns the unchanged store alongside its result.
-/

namespace SessionStorage

/-- One stored session (interface `StoredSession`).  `messages` is an ordered
sequence of opaque message records, modelled by an opaque payload list. -/
structure StoredSession where
  sessionId : String
  projectPath : String
  messages : List Nat
  timestamp : Nat
  deriving Repr, DecidableEq

/-- `SESSION_EXPIRY_MS = 24 * 60 * 60 * 1000` (24 hours). -/
def SESSION_EXPIRY_MS : Nat := 24 * 60 * 60 * 1000

/-- The persisted blob under `claudia_active_sessions`: absent, or an
association list keyed by session id (JS object, insertion order). -/
abbrev Store := Option (List (String × StoredSession))

/-- JS `now - timestamp > SESSION_EXPIRY_MS` (the expiry test in
`getAllSessions` and `getSession`).  `Nat` subtraction truncates at zero,
matching the JS comparison for any `timestamp` (a future timestamp gives a
negative difference in JS, which is not `> EXPIRY` either). -/
def isExpired (now : Nat) (s : StoredSession) : Bool :=
  SESSION_EXPIRY_MS < now - s.timestamp

/-- `getAllSessions` (lines 47-67): deserializes the blob (absent ⇒ `{}`),
deletes every expired entry from the in-memory object, and returns it.
No `localStorage.setItem` occurs on this path. -/
def getAllSessions (now : Nat) (store : Store) : List (String × StoredSession) :=
  match store with
  | none => []
  | some sessions => sessions.filter (fun p => ! isExpired now p.2)

/-- `getAllSessions` as a store operation: result paired with the store after
the call (unchanged, since the function never writes). -/
def getAllSessionsOp (now : Nat) (store : Store) :
    List (String × StoredSession) × Store :=
  (getAllSessions now store, store)

/-- JS `sessions[sessionId]` property lookup. -/
def lookupSession (id : String) (sessions : List (String × StoredSession)) :
    Option StoredSession :=
  (sessions.find? (fun p => p.1 = id)).map Prod.snd

/-- JS `sessions[sessionId] = v`: update in place if the key exists, else
append (object insertion-order semantics). -/
def setSession (id : String) (v : StoredSession) :
    List (String × StoredSession) → List (String × StoredSession)
  | [] => [(id, v)]
  | p :: rest => if p.1 = id then (id, v) :: rest else p :: setSession id v rest

/-- `removeSession(sessionId)` (lines 69-77): re-reads via `getAllSessions`
(which prunes expired entries in memory), performs `delete sessions[id]`, and
writes the whole object back. -/
def removeSession (now : Nat) (store : Store) (sessionId : String) : Store :=
  some ((getAllSessions now store).filter (fun p => p.1 ≠ sessionId))

/-- `saveSession(sessionId, projectPath, messages)` (lines 12-25): re-reads
via `getAllSessions`, upserts the entry with `timestamp = Date.now()`, and
writes the whole object back. -/
def saveSession (now : Nat) (store : Store) (sessionId projectPath : String)
    (messages : List Nat) : Store :=
  some (setSession sessionId
    { sessionId := sessionId, projectPath := projectPath,
      messages := messages, timestamp := now }
    (getAllSessions now store))

/-- `getSession(sessionId)` (lines 27-45): reads via `getAllSessions`, returns
`null` when absent; if the found entry fails the TTL check it calls
`removeSession` and returns `null`; otherwise returns the entry.  Result is
paired with the store after the call. -/
def getSession (now : Nat) (store : Store) (sessionId : String) :
    Option StoredSession × Store :=
  match lookupSession sessionId (getAllSessions now store) with
  | none => (none, store)
  | some session =>
    if isExpired now session then
      (none, removeSession now store sessionId)
    else
      (some session, store)

/-- `getActiveSessions()` (lines 79-84): values of `getAllSessions` filtered
by `now - timestamp < EXPIRY` (a second, strict-inequality liveness check). -/
def getActiveSessions (now : Nat) (store : Store) : List StoredSession :=
  ((getAllSessions now store).map Prod.snd).filter
    (fun s => now - s.timestamp < SESSION_EXPIRY_MS)

end SessionStorage

/-!
Part 2 models `src/components/TimelineNavigator.tsx`: the pure state logic of
`loadCheckpoints` (sort by `messageIndex`, per-checkpoint enrichment with an
incremental diff, zero-change filtering), `extractMessageInfo`, and
`handleForkCheckpoint`.  The remote checkpoint API is a parameter: a diff
oracle returning `none` models the awaited request throwing (the `catch`
path).  Each enrichment step also returns the list of diff requests it
issued, so that "exactly one request against the predecessor" and "no request
for the first checkpoint" are statable.  JS strings are modelled by `String`
(`substring(0, 150)` is `String.take 150`, `.length` the character count).
-/

namespace Timeline

/-- Raw checkpoint info from the external API (`TitorCheckpointInfo`). -/
structure CheckpointInfo where
  checkpointId : String
  messageIndex : Nat
  timestamp : Nat
  fileCount : Nat
  deriving Repr, DecidableEq

/-- The `text` field of a `'text'` content item: absent, a string, or an
object carrying an optional inner `.text` string. -/
inductive ItemText where
  | undef
  | str (s : String)
  | obj (inner : Option String)
  deriving Repr, DecidableEq

/-- JS truthiness of `item.text` / `textContent?.text`. -/
def ItemText.truthy : ItemText → Bool
  | .undef => false
  | .str s => s ≠ ""
  | .obj _ => true

/-- The `textValue` computed at lines 189-196: empty unless `item.text` is
truthy; a string gives itself; an object gives `String(obj.text || '')`. -/
def textValueOf : ItemText → String
  | .undef => ""
  | .str s => s
  | .obj none => ""
  | .obj (some t) => t

/-- One element of an array-shaped `message.message.content`. -/
inductive ContentItem where
  | text (t : ItemText)
  | toolUse (name : Option String)
  | other
  deriving Repr, DecidableEq

/-- `message.message?.content`: an array, a string, or missing/undefined. -/
inductive MsgContent where
  | arr (items : List ContentItem)
  | str (s : String)
  | absent
  deriving Repr, DecidableEq

/-- JS truthiness of `message.message?.content` (an array object is truthy,
the empty string is not). -/
def MsgContent.truthy : MsgContent → Bool
  | .arr _ => true
  | .str s => s ≠ ""
  | .absent => false

/-- `message.type`. -/
inductive MsgType where
  | assistant
  | user
  | other
  deriving Repr, DecidableEq

/-- A conversation message as far as `extractMessageInfo` inspects it. -/
structure Message where
  type : MsgType
  content : MsgContent
  deriving Repr, DecidableEq

/-- `text.substring(0, 150) + (text.length > 150 ? '...' : '')`. -/
def preview (text : String) : String :=
  text.take 150 ++ (if 150 < text.length then "..." else "")

/-- The `for (const item of message.message.content)` loop of the assistant
branch (lines 187-204), threading the accumulated `content` and `tools`. -/
def assistantLoop : List ContentItem → String × List String → String × List String
  | [], acc => acc
  | item :: rest, (content, tools) =>
    match item with
    | .text t =>
      let textValue := textValueOf t
      if textValue ≠ "" ∧ content.length < 150 then
        assistantLoop rest (preview textValue, tools)
      else
        assistantLoop rest (content, tools)
    | .toolUse name =>
      match name with
      | some n =>
        if n = "" then assistantLoop rest (content, tools)
        else assistantLoop rest (content, tools ++ [n])
      | none => assistantLoop rest (content, tools)
    | .other => assistantLoop rest (content, tools)

/-- `c.type === 'text'` test used by the user branch's `find`. -/
def isTextItem : ContentItem → Bool
  | .text _ => true
  | _ => false

/-- The user branch (lines 210-218): take the first `'text'` item; if its
`text` is truthy, extract and ellipsis-truncate it. -/
def userContent (items : List ContentItem) : String :=
  match items.find? isTextItem with
  | some (.text t) => if t.truthy then preview (textValueOf t) else ""
  | _ => ""

/-- The final `content || 'No content'`. -/
def orNoContent (content : String) : String :=
  if content = "" then "No content" else content

/-- The body of `extractMessageInfo` after the range guard: dispatch on
`message.type` and the shape and truthiness of `message.message?.content`
(lines 184-219). -/
def extractFromMessage (message : Message) : String × List String :=
  match message.type with
  | .assistant =>
    if message.content.truthy then
      match message.content with
      | .arr items => assistantLoop items ("", [])
      | .str s => (preview s, [])
      | .absent => ("", [])
    else ("", [])
  | .user =>
    if message.content.truthy then
      match message.content with
      | .arr items => (userContent items, [])
      | _ => ("", [])
    else ("", [])
  | .other => ("", [])

/-- `extractMessageInfo(messageIndex)` (lines 175-222) over a fixed `messages`
array.  The index is an `Int` so the negative guard is meaningful.  (The
`!messages` clause of the guard has no counterpart: a Lean list is never
`undefined`, and the empty array is truthy in JS, so that clause never fires
for an array value; the length test covers the empty case.) -/
def extractMessageInfo (messages : List Message) (messageIndex : Int) :
    String × List String :=
  if messageIndex < 0 ∨ (messages.length : Int) ≤ messageIndex then ("", [])
  else
    (orNoContent (extractFromMessage
        ((messages.get? messageIndex.toNat).getD ⟨.other, .absent⟩)).1,
     (extractFromMessage
        ((messages.get? messageIndex.toNat).getD ⟨.other, .absent⟩)).2)

/-- One element of `diff.addedFiles` / `diff.deletedFiles`: a bare path
string, an object with the alternative field names the code sniffs, or
something else (neither string nor object). -/
inductive DiffFile where
  | str (path : String)
  | obj (path file_path name : Option String) (size file_size total_size : Option Nat)
  | nul
  deriving Repr, DecidableEq

/-- JS `a || b` for the string-valued field chain (empty string is falsy). -/
def jsOrStr : Option String → String → String
  | some s, d => if s = "" then d else s
  | none, d => d

/-- JS `a || b` for the numeric field chain (`0` is falsy). -/
def jsOrNat : Option Nat → Option Nat → Option Nat
  | some n, b => if n = 0 then b else some n
  | none, b => b

/-- Result shape of `extractFilePath`: `{ path, size? }`. -/
structure FileEntry where
  path : String
  size : Option Nat
  deriving Repr, DecidableEq

/-- `extractFilePath` (lines 262-271). -/
def extractFilePath : DiffFile → FileEntry
  | .str p => ⟨p, none⟩
  | .obj path file_path name size file_size total_size =>
    ⟨jsOrStr path (jsOrStr file_path (jsOrStr name "Unknown file")),
     jsOrNat size (jsOrNat file_size total_size)⟩
  | .nul => ⟨"Unknown file", none⟩

/-- One element of `diff.modifiedFiles`: an object with truthy `old` and
`new` fields, or anything else (which falls through to `extractFilePath`). -/
inductive ModEntry where
  | pair (o n : DiffFile)
  | plain (f : DiffFile)
  deriving Repr, DecidableEq

/-- Result of mapping one modified entry (lines 275-286). -/
inductive ModOut where
  | paired (path : String) (oldSize newSize : Option Nat)
  | single (f : FileEntry)
  deriving Repr, DecidableEq

/-- The `modifiedFiles.map` callback. -/
def extractMod : ModEntry → ModOut
  | .pair o n =>
    .paired (extractFilePath n).path (extractFilePath o).size (extractFilePath n).size
  | .plain f => .single (extractFilePath f)

/-- The response of `api.titorDiffCheckpoints`. -/
structure DiffResponse where
  addedFiles : List DiffFile
  modifiedFiles : List ModEntry
  deletedFiles : List DiffFile
  deriving Repr, DecidableEq

/-- The `filesChanged` summary counts. -/
structure FilesChanged where
  added : Nat
  modified : Nat
  deleted : Nat
  deriving Repr, DecidableEq

/-- The `detailedFileChanges` record. -/
structure DetailedFileChanges where
  added : List FileEntry
  modified : List ModOut
  deleted : List FileEntry
  deriving Repr, DecidableEq

/-- A checkpoint after enrichment (`CheckpointWithUIState`, the fields
`loadCheckpoints` fills in). -/
structure EnrichedCheckpoint where
  info : CheckpointInfo
  messageContent : String
  toolsUsed : List String
  filesChanged : Option FilesChanged
  detailedFileChanges : Option DetailedFileChanges
  deriving Repr, DecidableEq

/-- The diff endpoint, abstracted: `none` models the awaited
`titorDiffCheckpoints` call throwing (handled by the `catch` at line 309). -/
abbrev DiffOracle := String → String → Option DiffResponse

/-- The diff-dependent part of the `sortedCheckpoints.map` callback (lines
251-294 and the `catch` at 309-311): a successful response is mapped through
`extractFilePath`/the modified-pair callback, a thrown request (`none`)
leaves `filesChanged` and `detailedFileChanges` `undefined` and aborts
nothing else. -/
def enrichWithDiff (ct : String × List String) (checkpoint : CheckpointInfo)
    (res : Option DiffResponse) : EnrichedCheckpoint :=
  match res with
  | some diff =>
    let detailed : DetailedFileChanges :=
      { added := diff.addedFiles.map extractFilePath,
        modified := diff.modifiedFiles.map extractMod,
        deleted := diff.deletedFiles.map extractFilePath }
    { info := checkpoint, messageContent := ct.1, toolsUsed := ct.2,
      filesChanged := some ⟨detailed.added.length, detailed.modified.length,
        detailed.deleted.length⟩,
      detailedFileChanges := some detailed }
  | none =>
    { info := checkpoint, messageContent := ct.1, toolsUsed := ct.2,
      filesChanged := none, detailedFileChanges := none }

/-- The body of the `sortedCheckpoints.map` callback (lines 243-320) at a
given position `index`.  Also returns the list of diff requests (from-id,
to-id) the step issued: one against the predecessor for `index > 0`, none for
the first checkpoint, which instead gets `{added: fileCount, modified: 0,
deleted: 0}` and empty detailed lists. -/
def enrichOne (messages : List Message) (oracle : DiffOracle)
    (sorted : List CheckpointInfo) (index : Nat) (checkpoint : CheckpointInfo) :
    EnrichedCheckpoint × List (String × String) :=
  let ct := extractMessageInfo messages (checkpoint.messageIndex : Int)
  if 0 < index then
    match sorted.get? (index - 1) with
    | some prevCheckpoint =>
      (enrichWithDiff ct checkpoint
        (oracle prevCheckpoint.checkpointId checkpoint.checkpointId),
       [(prevCheckpoint.checkpointId, checkpoint.checkpointId)])
    | none =>
      ({ info := checkpoint, messageContent := ct.1, toolsUsed := ct.2,
         filesChanged := none, detailedFileChanges := none }, [])
  else
    ({ info := checkpoint, messageContent := ct.1, toolsUsed := ct.2,
       filesChanged := some ⟨checkpoint.fileCount, 0, 0⟩,
       detailedFileChanges := some ⟨[], [], []⟩ }, [])

/-- Stable insertion step for the `sort((a, b) => a.messageIndex -
b.messageIndex)` call: a later element goes after equal earlier ones. -/
def insertByMessageIndex (c : CheckpointInfo) :
    List CheckpointInfo → List CheckpointInfo
  | [] => [c]
  | x :: xs =>
    if x.messageIndex ≤ c.messageIndex then x :: insertByMessageIndex c xs
    else c :: x :: xs

/-- `(result || []).sort((a, b) => a.messageIndex - b.messageIndex)`:
ascending stable sort by `messageIndex`. -/
def sortByMessageIndex (l : List CheckpointInfo) : List CheckpointInfo :=
  l.foldl (fun acc c => insertByMessageIndex c acc) []

/-- The full enriched list, in sorted order (`enhancedCheckpoints`). -/
def enrichedList (messages : List Message) (oracle : DiffOracle)
    (raw : List CheckpointInfo) : List EnrichedCheckpoint :=
  (sortByMessageIndex raw).enum.map
    (fun p => (enrichOne messages oracle (sortByMessageIndex raw) p.1 p.2).1)

/-- The retention test of the final `filter` (lines 324-335): keep iff
`filesChanged` is present and some count is positive. -/
def keepCheckpoint (e : EnrichedCheckpoint) : Bool :=
  match e.filesChanged with
  | some fc => 0 < fc.added || 0 < fc.modified || 0 < fc.deleted
  | none => false

/-- The claim's total-change count of an enriched checkpoint (an absent
`filesChanged` counts as zero changes). -/
def totalChanges (e : EnrichedCheckpoint) : Nat :=
  match e.filesChanged with
  | some fc => fc.added + fc.modified + fc.deleted
  | none => 0

/-- `loadCheckpoints` as a pure function of the messages, the diff oracle and
the raw API response: the published checkpoint list passed to
`setCheckpoints`. -/
def loadCheckpoints (messages : List Message) (oracle : DiffOracle)
    (raw : List CheckpointInfo) : List EnrichedCheckpoint :=
  (enrichedList messages oracle raw).filter keepCheckpoint

/-- JS `String.prototype.trim()`: strip whitespace from both ends (spelled
out over the character list so that it evaluates by `decide`). -/
def jsTrim (s : String) : String :=
  ⟨((s.data.dropWhile Char.isWhitespace).reverse.dropWhile
      Char.isWhitespace).reverse⟩

/-- `handleForkCheckpoint` (lines 370-399) as a function of the guard inputs
and the fork endpoint (`none` models the awaited call throwing).  Returns the
remote fork calls issued (session id, checkpoint id, description) and the
argument pair passed to the `onForkCheckpoint` callback (`none` when the
guard returned early or the call threw). -/
def handleForkCheckpoint (sessionId : String) (selectedCheckpoint : Option String)
    (forkMessage : String) (forkApi : String → String → String → Option String) :
    List (String × String × String) × Option (String × String) :=
  match selectedCheckpoint with
  | none => ([], none)
  | some sel =>
    if sel = "" then ([], none)
    else if jsTrim forkMessage = "" then ([], none)
    else
      match forkApi sessionId sel forkMessage with
      | some forkedCheckpointId =>
        ([(sessionId, sel, forkMessage)], some (forkedCheckpointId, forkMessage))
      | none => ([(sessionId, sel, forkMessage)], none)

end Timeline

namespace SessionStorage

/-- Any entry returned by `getAllSessions` passed the expiry filter. -/
theorem mem_getAllSessions_age_le {now : Nat} {store : Store}
    {p : String × StoredSession} (h : p ∈ getAllSessions now store) :
    now - p.2.timestamp ≤ SESSION_EXPIRY_MS := by
  cases store with
  | none => simp [getAllSessions] at h
  | some l =>
    simp only [getAllSessions, List.mem_filter] at h
    have h2 := h.2
    simp only [Bool.not_eq_true', isExpired, decide_eq_false_iff_not, not_lt] at h2
    exact h2

/-- A successful lookup in the pruned view yields a non-expired entry. -/
theorem lookup_getAllSessions_not_expired {now : Nat} {store : Store}
    {id : String} {s : StoredSession}
    (h : lookupSession id (getAllSessions now store) = some s) :
    isExpired now s = false := by
  simp only [lookupSession, Option.map_eq_some'] at h
  obtain ⟨p, hp, hps⟩ := h
  have hmem := List.mem_of_find?_eq_some hp
  have := mem_getAllSessions_age_le hmem
  subst hps
  simp only [isExpired, decide_eq_false_iff_not, not_lt]
  exact this

/-- `getSession` reduces to a pure lookup in the pruned view and never touches
the store: the extra TTL re-check (lines 35-38) can never fire, because the
entry already survived the same-instant prune inside `getAllSessions`. -/
theorem getSession_eq (now : Nat) (store : Store) (id : String) :
    getSession now store id =
      (lookupSession id (getAllSessions now store), store) := by
  unfold getSession
  cases h : lookupSession id (getAllSessions now store) with
  | none => rfl
  | some s => simp [lookup_getAllSessions_not_expired h]

/-- Membership in `setSession id v l`: the new binding or an old one. -/
theorem mem_setSession {id : String} {v : StoredSession}
    {l : List (String × StoredSession)} {p : String × StoredSession}
    (h : p ∈ setSession id v l) : p = (id, v) ∨ p ∈ l := by
  induction l with
  | nil => simpa [setSession] using h
  | cons q rest ih =>
    simp only [setSession] at h
    by_cases hq : q.1 = id
    · simp only [hq, if_true, List.mem_cons] at h
      rcases h with h | h
      · exact Or.inl h
      · exact Or.inr (List.mem_cons_of_mem _ h)
    · simp only [hq, if_false, List.mem_cons] at h
      rcases h with h | h
      · exact Or.inr (h ▸ List.mem_cons_self _ _)
      · rcases ih h with h' | h'
        · exact Or.inl h'
        · exact Or.inr (List.mem_cons_of_mem _ h')

end SessionStorage

namespace SessionStorage

/-- **C1.** Corrected.  The first half of the claim holds: every entry in the
mapping returned by `getAllSessions` has age at most the 24-hour TTL.  The
second half is amended: the call performs no write at all, so the store after
the call is exactly the store before it — expired entries are pruned only
from the returned in-memory mapping, never from the persisted blob. -/
theorem getAllSessions_prunes_view_but_never_writes (now : Nat) (store : Store) :
    (∀ p ∈ (getAllSessionsOp now store).1,
        now - p.2.timestamp ≤ SESSION_EXPIRY_MS) ∧
    (getAllSessionsOp now store).2 = store :=
  ⟨fun _ hp => mem_getAllSessions_age_le hp, rfl⟩

/-- Witness for C1's theorem at a concrete store with one live entry. -/
theorem getAllSessions_prunes_view_but_never_writes_witness :
    ((10 : Nat) - (StoredSession.mk "a" "p" [] 0).timestamp ≤ SESSION_EXPIRY_MS) ∧
    (getAllSessionsOp 10 (some [("a", StoredSession.mk "a" "p" [] 0)])).2 =
      some [("a", StoredSession.mk "a" "p" [] 0)] :=
  ⟨(getAllSessions_prunes_view_but_never_writes 10
      (some [("a", StoredSession.mk "a" "p" [] 0)])).1
      ("a", StoredSession.mk "a" "p" [] 0) (by decide),
   (getAllSessions_prunes_view_but_never_writes 10
      (some [("a", StoredSession.mk "a" "p" [] 0)])).2⟩

/-- **C1 counterexample.**  A store holding a single entry of age TTL+1ms is
returned pruned, but the persisted blob after the call still contains that
expired entry: `getAllSessions` does not persist the pruned mapping, so a
subsequent independent read of the store still sees the over-TTL entry. -/
theorem getAllSessions_counterexample :
    (getAllSessionsOp (SESSION_EXPIRY_MS + 1)
        (some [("a", StoredSession.mk "a" "p" [] 0)])).1 = [] ∧
    (getAllSessionsOp (SESSION_EXPIRY_MS + 1)
        (some [("a", StoredSession.mk "a" "p" [] 0)])).2 =
      some [("a", StoredSession.mk "a" "p" [] 0)] ∧
    SESSION_EXPIRY_MS <
      (SESSION_EXPIRY_MS + 1) - (StoredSession.mk "a" "p" [] 0).timestamp := by
  refine ⟨by decide, rfl, by decide⟩

/-- **C4.** Corrected.  `getSession` never modifies the persisted store (the
`removeSession` branch is unreachable at a single instant, because the entry
was already pruned by `getAllSessions` under the same strict test); any
session it returns has age at most the TTL (strict 24h expiry: an entry of
age exactly 24h is still returned); and a session surviving the pruned view
is returned unchanged. -/
theorem getSession_strict_ttl_no_writeback (now : Nat) (store : Store)
    (id : String) :
    (getSession now store id).2 = store ∧
    (∀ s, (getSession now store id).1 = some s →
        now - s.timestamp ≤ SESSION_EXPIRY_MS) ∧
    (∀ s, lookupSession id (getAllSessions now store) = some s →
        (getSession now store id).1 = some s) := by
  rw [getSession_eq]
  refine ⟨rfl, ?_, ?_⟩
  · intro s hs
    simp only at hs
    have := lookup_getAllSessions_not_expired hs
    simp only [isExpired, decide_eq_false_iff_not, not_lt] at this
    exact this
  · intro s hs
    simpa using hs

/-- Witness for C4's theorem: a live entry of age 10ms is returned as is and
the store is untouched. -/
theorem getSession_strict_ttl_no_writeback_witness :
    (getSession 10 (some [("a", StoredSession.mk "a" "p" [] 0)]) "a").2 =
      some [("a", StoredSession.mk "a" "p" [] 0)] ∧
    (getSession 10 (some [("a", StoredSession.mk "a" "p" [] 0)]) "a").1 =
      some (StoredSession.mk "a" "p" [] 0) :=
  ⟨(getSession_strict_ttl_no_writeback 10
      (some [("a", StoredSession.mk "a" "p" [] 0)]) "a").1,
   (getSession_strict_ttl_no_writeback 10
      (some [("a", StoredSession.mk "a" "p" [] 0)]) "a").2.2
      (StoredSession.mk "a" "p" [] 0) (by decide)⟩

/-- **C4 counterexample.**  At age exactly 24h (`now - timestamp = TTL`, so
`now - timestamp ≥ 24h` as the claim requires) `getSession` still returns the
session, not absent — the code expires only on strict excess; and at age
TTL+1ms it does return absent, but the persisted registry after the call
still contains the session, contradicting the claimed removal side effect. -/
theorem getSession_counterexample :
    (getSession SESSION_EXPIRY_MS
        (some [("a", StoredSession.mk "a" "p" [] 0)]) "a").1 =
      some (StoredSession.mk "a" "p" [] 0) ∧
    (getSession (SESSION_EXPIRY_MS + 1)
        (some [("a", StoredSession.mk "a" "p" [] 0)]) "a").1 = none ∧
    (getSession (SESSION_EXPIRY_MS + 1)
        (some [("a", StoredSession.mk "a" "p" [] 0)]) "a").2 =
      some [("a", StoredSession.mk "a" "p" [] 0)] := by
  refine ⟨by decide, by decide, by decide⟩

/-- **C9.** Confirmed.  Both `saveSession` and `removeSession` write back the
full mapping obtained from `getAllSessions`, which drops every entry whose age
strictly exceeds the TTL at the instant of the call; hence after either call
the persisted blob contains no such entry, including entries the call did not
name (the entry `saveSession` writes has age 0). -/
theorem save_remove_compact_persisted_store (now : Nat) (store : Store)
    (id pp : String) (msgs : List Nat) :
    (∀ p ∈ (saveSession now store id pp msgs).getD [],
        now - p.2.timestamp ≤ SESSION_EXPIRY_MS) ∧
    (∀ p ∈ (removeSession now store id).getD [],
        now - p.2.timestamp ≤ SESSION_EXPIRY_MS) := by
  constructor
  · intro p hp
    simp only [saveSession, Option.getD_some] at hp
    rcases mem_setSession hp with h | h
    · subst h; simp
    · exact mem_getAllSessions_age_le h
  · intro p hp
    simp only [removeSession, Option.getD_some] at hp
    exact mem_getAllSessions_age_le (List.mem_of_mem_filter hp)

/-- Witness for C9's theorem: saving into a store whose only entry is expired
leaves a blob whose single entry (the fresh one) is within TTL, and removing
an id from that store leaves an empty, hence compacted, blob. -/
theorem save_remove_compact_persisted_store_witness :
    (SESSION_EXPIRY_MS + 5) -
        (StoredSession.mk "b" "q" [] (SESSION_EXPIRY_MS + 5)).timestamp ≤
      SESSION_EXPIRY_MS ∧
    (removeSession (SESSION_EXPIRY_MS + 5)
        (some [("a", StoredSession.mk "a" "p" [] 0)]) "b").getD [] = [] :=
  ⟨(save_remove_compact_persisted_store (SESSION_EXPIRY_MS + 5)
      (some [("a", StoredSession.mk "a" "p" [] 0)]) "b" "q" []).1
      ("b", StoredSession.mk "b" "q" [] (SESSION_EXPIRY_MS + 5)) (by decide),
   by decide⟩

end SessionStorage

namespace Timeline

/-- Both outcomes of the diff request keep the checkpoint itself. -/
theorem enrichWithDiff_info (ct : String × List String) (c : CheckpointInfo)
    (res : Option DiffResponse) : (enrichWithDiff ct c res).info = c := by
  cases res <;> rfl

/-- Every branch of the enrichment step keeps the checkpoint itself. -/
theorem enrichOne_info (messages : List Message) (oracle : DiffOracle)
    (sorted : List CheckpointInfo) (i : Nat) (c : CheckpointInfo) :
    (enrichOne messages oracle sorted i c).1.info = c := by
  unfold enrichOne
  by_cases hi : 0 < i
  · simp only [if_pos hi]
    cases sorted.get? (i - 1) with
    | none => rfl
    | some p => exact enrichWithDiff_info _ _ _
  · simp only [if_neg hi]

/-- **C5.** Confirmed.  At position 0 of the sorted sequence, enrichment sets
`filesChanged = {added: fileCount, modified: 0, deleted: 0}`, empty detailed
lists, and issues no diff request; in particular a checkpoint with
`fileCount = 5` yields `{added: 5, modified: 0, deleted: 0}`. -/
theorem first_checkpoint_baseline (messages : List Message) (oracle : DiffOracle)
    (sorted : List CheckpointInfo) (c : CheckpointInfo) :
    (enrichOne messages oracle sorted 0 c).1.filesChanged = some ⟨c.fileCount, 0, 0⟩ ∧
    (enrichOne messages oracle sorted 0 c).1.detailedFileChanges = some ⟨[], [], []⟩ ∧
    (enrichOne messages oracle sorted 0 c).2 = [] ∧
    (enrichOne messages oracle sorted 0 ⟨"c0", 0, 0, 5⟩).1.filesChanged =
      some ⟨5, 0, 0⟩ :=
  ⟨rfl, rfl, rfl, rfl⟩

/-- **C2.** Confirmed.  For every position `i > 0` of the sorted sequence,
the enrichment step issues exactly one diff request, whose endpoints are the
checkpoint at position `i - 1` and the one at position `i`; and when that
request succeeds, `filesChanged` and `detailedFileChanges` are exactly the
mapped contents of that single response, so the counts are incremental per
step, never cumulative from the session start. -/
theorem incremental_diff_against_predecessor (messages : List Message)
    (oracle : DiffOracle) (raw : List CheckpointInfo) (i : Nat) (hi : 0 < i)
    (h1 : i - 1 < (sortByMessageIndex raw).length)
    (h : i < (sortByMessageIndex raw).length) :
    (enrichOne messages oracle (sortByMessageIndex raw) i
        ((sortByMessageIndex raw).get ⟨i, h⟩)).2 =
      [(((sortByMessageIndex raw).get ⟨i - 1, h1⟩).checkpointId,
        ((sortByMessageIndex raw).get ⟨i, h⟩).checkpointId)] ∧
    ∀ diff,
      oracle ((sortByMessageIndex raw).get ⟨i - 1, h1⟩).checkpointId
          ((sortByMessageIndex raw).get ⟨i, h⟩).checkpointId = some diff →
      (enrichOne messages oracle (sortByMessageIndex raw) i
          ((sortByMessageIndex raw).get ⟨i, h⟩)).1.filesChanged =
        some ⟨(diff.addedFiles.map extractFilePath).length,
              (diff.modifiedFiles.map extractMod).length,
              (diff.deletedFiles.map extractFilePath).length⟩ ∧
      (enrichOne messages oracle (sortByMessageIndex raw) i
          ((sortByMessageIndex raw).get ⟨i, h⟩)).1.detailedFileChanges =
        some ⟨diff.addedFiles.map extractFilePath,
              diff.modifiedFiles.map extractMod,
              diff.deletedFiles.map extractFilePath⟩ := by
  have hq := List.get?_eq_get h1
  constructor
  · unfold enrichOne
    simp only [if_pos hi, hq]
  · intro diff hdiff
    unfold enrichOne
    simp only [if_pos hi, hq, hdiff]
    exact ⟨rfl, rfl⟩

/-- Witness for C2's theorem on a concrete two-checkpoint load. -/
theorem incremental_diff_against_predecessor_witness :
    (enrichOne [] (fun _ _ => some ⟨[DiffFile.str "f"], [], []⟩)
        (sortByMessageIndex [⟨"a", 0, 0, 1⟩, ⟨"b", 1, 0, 2⟩]) 1
        ((sortByMessageIndex [⟨"a", 0, 0, 1⟩, ⟨"b", 1, 0, 2⟩]).get
          ⟨1, by decide⟩)).2 = [("a", "b")] ∧
    (enrichOne [] (fun _ _ => some ⟨[DiffFile.str "f"], [], []⟩)
        (sortByMessageIndex [⟨"a", 0, 0, 1⟩, ⟨"b", 1, 0, 2⟩]) 1
        ((sortByMessageIndex [⟨"a", 0, 0, 1⟩, ⟨"b", 1, 0, 2⟩]).get
          ⟨1, by decide⟩)).1.filesChanged = some ⟨1, 0, 0⟩ := by
  have hthm := incremental_diff_against_predecessor []
    (fun _ _ => some ⟨[DiffFile.str "f"], [], []⟩)
    [⟨"a", 0, 0, 1⟩, ⟨"b", 1, 0, 2⟩] 1 (by decide) (by decide) (by decide)
  refine ⟨hthm.1.trans (by decide), ?_⟩
  have h2 := (hthm.2 ⟨[DiffFile.str "f"], [], []⟩ (by decide)).1
  exact h2.trans (by decide)

/-- The source's retention test (`added > 0 || modified > 0 || deleted > 0`,
with absent `filesChanged` excluded) agrees with the claim's formulation
`added + modified + deleted > 0`. -/
theorem keepCheckpoint_eq_totalChanges (e : EnrichedCheckpoint) :
    keepCheckpoint e = decide (0 < totalChanges e) := by
  cases hfc : e.filesChanged with
  | none => simp [keepCheckpoint, totalChanges, hfc]
  | some fc =>
    simp only [keepCheckpoint, totalChanges, hfc]
    rw [Bool.eq_iff_iff]
    simp only [Bool.or_eq_true, decide_eq_true_eq]
    omega

/-- **C3.** Confirmed.  (1) The published timeline is exactly the enriched
list filtered by `added + modified + deleted > 0` (a checkpoint with a failed
diff has no `filesChanged`, hence total 0, hence is excluded); (2) an
enriched checkpoint whose diff failed is never published; (3) the enrichment
of a checkpoint depends only on the diff response for its own predecessor
pair, so one checkpoint's failure cannot abort or alter the enrichment of any
other checkpoint in the batch. -/
theorem published_iff_positive_changes (messages : List Message)
    (oracle1 oracle2 : DiffOracle) (raw : List CheckpointInfo)
    (sorted : List CheckpointInfo) (i : Nat) (c : CheckpointInfo) :
    loadCheckpoints messages oracle1 raw =
      (enrichedList messages oracle1 raw).filter
        (fun e => decide (0 < totalChanges e)) ∧
    (∀ e ∈ enrichedList messages oracle1 raw, e.filesChanged = none →
        e ∉ loadCheckpoints messages oracle1 raw) ∧
    ((∀ p, sorted.get? (i - 1) = some p →
        oracle1 p.checkpointId c.checkpointId =
          oracle2 p.checkpointId c.checkpointId) →
      enrichOne messages oracle1 sorted i c =
        enrichOne messages oracle2 sorted i c) := by
  refine ⟨?_, ?_, ?_⟩
  · unfold loadCheckpoints
    exact List.filter_congr (fun e _ => keepCheckpoint_eq_totalChanges e)
  · intro e _ hfc hmem
    rw [loadCheckpoints, List.mem_filter, keepCheckpoint] at hmem
    rw [hfc] at hmem
    exact absurd hmem.2 (by simp)
  · intro hagree
    unfold enrichOne
    by_cases hi : 0 < i
    · simp only [if_pos hi]
      cases hp : sorted.get? (i - 1) with
      | none => rfl
      | some p => simp only [hagree p hp]
    · simp only [if_neg hi]

/-- Witness for C3's theorem: with an always-failing diff oracle, the second
checkpoint's enrichment (no `filesChanged`) is a member of the enriched list
yet absent from the published timeline. -/
theorem published_iff_positive_changes_witness :
    ({ info := ⟨"b", 1, 0, 1⟩, messageContent := "", toolsUsed := [],
       filesChanged := none, detailedFileChanges := none } :
        EnrichedCheckpoint) ∉
      loadCheckpoints [] (fun _ _ => none) [⟨"a", 0, 0, 0⟩, ⟨"b", 1, 0, 1⟩] :=
  (published_iff_positive_changes [] (fun _ _ => none) (fun _ _ => none)
      [⟨"a", 0, 0, 0⟩, ⟨"b", 1, 0, 1⟩] [] 0 ⟨"a", 0, 0, 0⟩).2.1
    { info := ⟨"b", 1, 0, 1⟩, messageContent := "", toolsUsed := [],
      filesChanged := none, detailedFileChanges := none }
    (by decide) rfl

/-- Membership after stable insertion: the new element or an old one. -/
theorem mem_insertByMessageIndex {c x : CheckpointInfo}
    {l : List CheckpointInfo} (h : x ∈ insertByMessageIndex c l) :
    x = c ∨ x ∈ l := by
  induction l with
  | nil => simpa [insertByMessageIndex] using h
  | cons y ys ih =>
    simp only [insertByMessageIndex] at h
    by_cases hy : y.messageIndex ≤ c.messageIndex
    · rw [if_pos hy] at h
      rcases List.mem_cons.mp h with h | h
      · exact Or.inr (h ▸ List.mem_cons_self _ _)
      · rcases ih h with h | h
        · exact Or.inl h
        · exact Or.inr (List.mem_cons_of_mem _ h)
    · rw [if_neg hy] at h
      rcases List.mem_cons.mp h with h | h
      · exact Or.inl h
      · exact Or.inr h

/-- Stable insertion preserves the non-strict `messageIndex` ordering. -/
theorem pairwise_insertByMessageIndex {c : CheckpointInfo}
    {l : List CheckpointInfo}
    (h : l.Pairwise (fun a b => a.messageIndex ≤ b.messageIndex)) :
    (insertByMessageIndex c l).Pairwise
      (fun a b => a.messageIndex ≤ b.messageIndex) := by
  induction l with
  | nil => simp [insertByMessageIndex]
  | cons y ys ih =>
    rcases List.pairwise_cons.mp h with ⟨hy, hys⟩
    simp only [insertByMessageIndex]
    by_cases hcy : y.messageIndex ≤ c.messageIndex
    · rw [if_pos hcy]
      refine List.pairwise_cons.mpr ⟨?_, ih hys⟩
      intro z hz
      rcases mem_insertByMessageIndex hz with rfl | hz2
      · exact hcy
      · exact hy z hz2
    · rw [if_neg hcy]
      refine List.pairwise_cons.mpr ⟨?_, h⟩
      intro z hz
      rcases List.mem_cons.mp hz with rfl | hz2
      · omega
      · have := hy z hz2
        omega

/-- The insertion fold keeps any sorted accumulator sorted. -/
theorem pairwise_sortFold (l : List CheckpointInfo) :
    ∀ acc : List CheckpointInfo,
      acc.Pairwise (fun a b => a.messageIndex ≤ b.messageIndex) →
      (l.foldl (fun a c => insertByMessageIndex c a) acc).Pairwise
        (fun a b => a.messageIndex ≤ b.messageIndex) := by
  induction l with
  | nil => intro acc h; simpa using h
  | cons c cs ih =>
    intro acc h
    exact ih _ (pairwise_insertByMessageIndex h)

/-- The sorted working copy is ascending (non-strictly) by `messageIndex`. -/
theorem pairwise_sortByMessageIndex (l : List CheckpointInfo) :
    (sortByMessageIndex l).Pairwise
      (fun a b => a.messageIndex ≤ b.messageIndex) :=
  pairwise_sortFold l [] List.Pairwise.nil

/-- **C6.** Corrected.  After every load the published sequence is ascending
by `messageIndex`, but only non-strictly: the comparator sorts, and the
filter preserves order, yet nothing collapses duplicates, so a raw response
with repeated `messageIndex` values (possible in all-sessions mode) yields
equal adjacent indices in the published list. -/
theorem published_ascending_by_messageIndex (messages : List Message)
    (oracle : DiffOracle) (raw : List CheckpointInfo) :
    (loadCheckpoints messages oracle raw).Pairwise
      (fun a b => a.info.messageIndex ≤ b.info.messageIndex) := by
  have hs := pairwise_sortByMessageIndex raw
  have hmapped : ((sortByMessageIndex raw).enum.map Prod.snd).Pairwise
      (fun a b : CheckpointInfo => a.messageIndex ≤ b.messageIndex) := by
    rw [List.enum_map_snd]
    exact hs
  have henum := List.pairwise_map.mp hmapped
  have hlist : (enrichedList messages oracle raw).Pairwise
      (fun a b => a.info.messageIndex ≤ b.info.messageIndex) := by
    unfold enrichedList
    rw [List.pairwise_map]
    refine henum.imp ?_
    intro p q hpq
    simpa [enrichOne_info] using hpq
  unfold loadCheckpoints
  exact hlist.filter keepCheckpoint

/-- **C6 counterexample.**  Two raw checkpoints share `messageIndex = 0` and
both survive the zero-change filter (the first via its `fileCount`, the
second via a non-empty diff), so the published sequence has two entries with
equal `messageIndex`: it is not strictly ascending. -/
theorem published_not_strictly_ascending_counterexample :
    ((loadCheckpoints [] (fun _ _ => some ⟨[DiffFile.str "f"], [], []⟩)
        [⟨"a", 0, 0, 1⟩, ⟨"b", 0, 0, 2⟩]).map
      (fun e => e.info.messageIndex)) = [0, 0] ∧
    ¬ (loadCheckpoints [] (fun _ _ => some ⟨[DiffFile.str "f"], [], []⟩)
        [⟨"a", 0, 0, 1⟩, ⟨"b", 0, 0, 2⟩]).Pairwise
      (fun a b => a.info.messageIndex < b.info.messageIndex) := by
  constructor
  · rfl
  · decide

/-- An ellipsis-truncated preview never exceeds 150 + 3 characters. -/
theorem preview_length_le (text : String) : (preview text).length ≤ 153 := by
  unfold preview
  rw [String.length_append, String.take_eq, String.mk_length, List.length_take]
  by_cases h : 150 < text.length
  · rw [if_pos h]
    show min 150 text.data.length + 3 ≤ 153
    omega
  · rw [if_neg h]
    show min 150 text.data.length + 0 ≤ 153
    omega

/-- The preview of a non-empty text is non-empty. -/
theorem preview_ne_empty {s : String} (h : s ≠ "") : preview s ≠ "" := by
  intro hc
  have hlen : (preview s).length = 0 := by rw [hc]; rfl
  have hd : s.data ≠ [] := fun hnil => h (String.ext hnil)
  have hpos : 0 < s.data.length := List.length_pos.mpr hd
  unfold preview at hlen
  rw [String.length_append, String.take_eq, String.mk_length,
    List.length_take] at hlen
  have hmin : 0 < min 150 s.data.length := by omega
  omega

/-- The assistant-branch loop never grows `content` beyond 153 characters. -/
theorem assistantLoop_length (items : List ContentItem)
    (acc : String × List String) (h : acc.1.length ≤ 153) :
    ((assistantLoop items acc).1).length ≤ 153 := by
  induction items generalizing acc with
  | nil => simpa [assistantLoop] using h
  | cons item rest ih =>
    obtain ⟨content, tools⟩ := acc
    cases item with
    | text t =>
      simp only [assistantLoop]
      split
      · exact ih _ (preview_length_le _)
      · exact ih _ h
    | toolUse name =>
      cases name with
      | some n =>
        simp only [assistantLoop]
        split
        · exact ih _ h
        · exact ih _ h
      | none =>
        simp only [assistantLoop]
        exact ih _ h
    | other =>
      simp only [assistantLoop]
      exact ih _ h

/-- The fallback never shrinks a bounded content below the bound. -/
theorem orNoContent_length {c : String} (h : c.length ≤ 153) :
    (orNoContent c).length ≤ 153 := by
  unfold orNoContent
  split
  · decide
  · exact h

/-- The user branch yields at most 153 characters. -/
theorem userContent_length (items : List ContentItem) :
    (userContent items).length ≤ 153 := by
  unfold userContent
  cases hf : items.find? isTextItem with
  | none => decide
  | some item =>
    cases item with
    | text t =>
      show (if t.truthy = true then preview (textValueOf t) else "").length ≤ 153
      split
      · exact preview_length_le _
      · decide
    | toolUse name =>
      show (("" : String)).length ≤ 153
      decide
    | other =>
      show (("" : String)).length ≤ 153
      decide

/-- Every branch of the post-guard extraction yields at most 153 chars. -/
theorem extractFromMessage_length (m : Message) :
    ((extractFromMessage m).1).length ≤ 153 := by
  obtain ⟨ty, co⟩ := m
  cases ty with
  | assistant =>
    cases co with
    | arr items =>
      simpa [extractFromMessage, MsgContent.truthy] using
        assistantLoop_length items ("", []) (by decide)
    | str s =>
      show ((if (MsgContent.str s).truthy = true
          then (preview s, ([] : List String)) else ("", [])).1).length ≤ 153
      split
      · exact preview_length_le s
      · decide
    | absent =>
      show (("" : String)).length ≤ 153
      decide
  | user =>
    cases co with
    | arr items =>
      simpa [extractFromMessage, MsgContent.truthy] using userContent_length items
    | str s =>
      show ((if (MsgContent.str s).truthy = true
          then (("" : String), ([] : List String)) else ("", [])).1).length ≤ 153
      split
      · decide
      · decide
    | absent =>
      show (("" : String)).length ≤ 153
      decide
  | other =>
    show (("" : String)).length ≤ 153
    decide

/-- **C7.** Corrected.  The preview's text portion is capped at 150
characters and a three-character ellipsis is appended exactly when the
underlying text exceeds 150 characters, so `messageContent` can reach 153
characters (cap plus ellipsis), though never more; it is derived from the
conversation message found at the given index.  The claim's 150-character
bound on the final string does not hold. -/
theorem messageContent_capped_with_ellipsis (messages : List Message)
    (idx : Int) :
    ((extractMessageInfo messages idx).1).length ≤ 153 ∧
    (∀ s : String, s ≠ "" →
      ¬(idx < 0 ∨ (messages.length : Int) ≤ idx) →
      (messages.get? idx.toNat).getD ⟨.other, .absent⟩ =
        ⟨.assistant, .str s⟩ →
      (extractMessageInfo messages idx).1 =
        s.take 150 ++ (if 150 < s.length then "..." else "")) := by
  constructor
  · unfold extractMessageInfo
    split
    · decide
    · exact orNoContent_length (extractFromMessage_length _)
  · intro s hs hr hm
    unfold extractMessageInfo
    rw [if_neg hr, hm]
    show orNoContent (extractFromMessage ⟨.assistant, .str s⟩).1 = _
    have hx : (extractFromMessage ⟨.assistant, .str s⟩).1 = preview s := by
      simp [extractFromMessage, MsgContent.truthy, hs]
    rw [hx]
    unfold orNoContent
    rw [if_neg (preview_ne_empty hs)]
    rfl

set_option maxRecDepth 4000 in
/-- Witness for C7's theorem: a 151-character text yields the 150-character
prefix plus ellipsis. -/
theorem messageContent_capped_with_ellipsis_witness :
    (extractMessageInfo
        [⟨.assistant, .str (String.mk (List.replicate 151 'a'))⟩] 0).1 =
      (String.mk (List.replicate 151 'a')).take 150 ++ "..." := by
  have h := (messageContent_capped_with_ellipsis
      [⟨.assistant, .str (String.mk (List.replicate 151 'a'))⟩] 0).2
      (String.mk (List.replicate 151 'a')) (by decide) (by decide) rfl
  rw [h]
  rw [if_pos (by decide : 150 < (String.mk (List.replicate 151 'a')).length)]

set_option maxRecDepth 4000 in
/-- **C7 counterexample.**  For a 151-character message text the produced
`messageContent` has 153 characters — the 150-character cap applies to the
text portion only, before the 3-character ellipsis is appended — so the
preview is not "at most 150 characters" as claimed. -/
theorem messageContent_over_150_counterexample :
    ((extractMessageInfo
        [⟨.assistant, .str (String.mk (List.replicate 151 'a'))⟩] 0).1).length
      = 153 ∧
    150 <
      ((extractMessageInfo
        [⟨.assistant, .str (String.mk (List.replicate 151 'a'))⟩] 0).1).length := by
  constructor
  · decide
  · decide

/-- **C8.** Confirmed.  The fork handler issues its remote call iff the guard
passes: a truthy selected checkpoint id and a description that is non-empty
after trimming whitespace; and on a successful call it hands the returned new
checkpoint id together with the description to the caller's callback. -/
theorem fork_requires_nonempty_description (sid : String)
    (sel : Option String) (msg : String)
    (api : String → String → String → Option String) :
    ((handleForkCheckpoint sid sel msg api).1 ≠ [] ↔
      ((∃ s, sel = some s ∧ s ≠ "") ∧ jsTrim msg ≠ "")) ∧
    (∀ s, sel = some s → s ≠ "" → jsTrim msg ≠ "" →
      (handleForkCheckpoint sid sel msg api).1 = [(sid, s, msg)] ∧
      ∀ newId, api sid s msg = some newId →
        (handleForkCheckpoint sid sel msg api).2 = some (newId, msg)) := by
  constructor
  · cases sel with
    | none => simp [handleForkCheckpoint]
    | some s =>
      by_cases hs : s = ""
      · subst hs
        simp [handleForkCheckpoint]
      · by_cases hm : jsTrim msg = ""
        · simp [handleForkCheckpoint, hs, hm]
        · simp only [handleForkCheckpoint, if_neg hs, if_neg hm]
          cases api sid s msg with
          | none => simp [hs, hm]
          | some newId => simp [hs, hm]
  · intro s hsel hs hm
    subst hsel
    simp only [handleForkCheckpoint, if_neg hs, if_neg hm]
    cases hapi : api sid s msg with
    | none => exact ⟨rfl, fun newId h => by cases h⟩
    | some newId =>
      refine ⟨rfl, fun nid h => ?_⟩
      cases h
      rfl

/-- Witness for C8's theorem: an empty-after-trim description issues no call,
a real description issues exactly one and the callback receives the new id
with the description. -/
theorem fork_requires_nonempty_description_witness :
    (handleForkCheckpoint "S" (some "c") "  hi  "
        (fun _ _ _ => some "new")).1 = [("S", "c", "  hi  ")] ∧
    (handleForkCheckpoint "S" (some "c") "  hi  "
        (fun _ _ _ => some "new")).2 = some ("new", "  hi  ") ∧
    (handleForkCheckpoint "S" (some "c") "   "
        (fun _ _ _ => some "new")).1 = [] := by
  have h := (fork_requires_nonempty_description "S" (some "c") "  hi  "
      (fun _ _ _ => some "new")).2 "c" rfl (by decide) (by decide)
  refine ⟨h.1, h.2 "new" rfl, ?_⟩
  have h2 := (fork_requires_nonempty_description "S" (some "c") "   "
      (fun _ _ _ => some "new")).1
  by_cases hx : (handleForkCheckpoint "S" (some "c") "   "
      (fun _ _ _ => some "new")).1 = []
  · exact hx
  · exact absurd ((h2.mp hx).2) (by decide)

/-- **C10.** Corrected.  The extraction is total at its boundary: an index
that is negative or at/past the array length yields `("", [])`, and an
in-range message always yields a non-empty content (the `'No content'`
fallback covers every shape without extractable text).  But the tools list is
not always empty for a message without extractable text: a `tool_use` item
contributes its name even when no text item exists. -/
theorem extract_total_at_boundary (messages : List Message) (idx : Int) :
    (idx < 0 ∨ (messages.length : Int) ≤ idx →
      extractMessageInfo messages idx = ("", [])) ∧
    (¬(idx < 0 ∨ (messages.length : Int) ≤ idx) →
      (extractMessageInfo messages idx).1 ≠ "") ∧
    (∀ n : String, n ≠ "" →
      extractMessageInfo [⟨.assistant, .arr [.toolUse (some n)]⟩] 0 =
        ("No content", [n])) := by
  refine ⟨?_, ?_, ?_⟩
  · intro h
    unfold extractMessageInfo
    rw [if_pos h]
  · intro h
    unfold extractMessageInfo
    rw [if_neg h]
    show orNoContent _ ≠ ""
    unfold orNoContent
    split
    · decide
    · assumption
  · intro n hn
    unfold extractMessageInfo
    rw [if_neg (by simp)]
    show (orNoContent (extractFromMessage ⟨.assistant, .arr [.toolUse (some n)]⟩).1,
      (extractFromMessage ⟨.assistant, .arr [.toolUse (some n)]⟩).2) = _
    have hx : extractFromMessage ⟨.assistant, .arr [.toolUse (some n)]⟩ =
        ("", [n]) := by
      show assistantLoop [.toolUse (some n)] ("", []) = ("", [n])
      simp [assistantLoop, hn]
    rw [hx]
    rfl

/-- Witness for C10's theorem at concrete inputs: a negative index and a
tool-only in-range message. -/
theorem extract_total_at_boundary_witness :
    extractMessageInfo [] (-1) = ("", []) ∧
    extractMessageInfo [⟨.assistant, .arr [.toolUse (some "Grep")]⟩] 0 =
      ("No content", ["Grep"]) :=
  ⟨(extract_total_at_boundary [] (-1)).1 (by decide),
   (extract_total_at_boundary [] (-1)).2.2 "Grep" (by decide)⟩

/-- **C10 counterexample.**  An in-range assistant message holding only a
`tool_use` item has no extractable text, so the claim requires an empty tools
list; the code returns the tool name, a non-empty list. -/
theorem extract_tools_not_empty_counterexample :
    extractMessageInfo [⟨.assistant, .arr [.toolUse (some "Bash")]⟩] 0 =
      ("No content", ["Bash"]) ∧
    (extractMessageInfo [⟨.assistant, .arr [.toolUse (some "Bash")]⟩] 0).2 ≠
      [] := by
  refine ⟨by decide, by decide⟩

end Timeline
